import Mathlib

/-!
Shallow embedding of the key-management lambda (src/aws-key-management-lambda.py).

The provider (AWS KMS) is an external collaborator; it is modelled as a
deterministic world: a map from region name to the keys of that region (state,
tags, policy document) and aliases.  Every provider API call is recorded in an
ordered trace, together with the region of the client that issued it; a call
on a key that does not exist in the target region fails with
NotFoundException, matching the only error code the source inspects.  Log
output is recorded with its level, since the source reports outcomes through
the logger.  Each Python function is translated into a Lean function that
threads this state explicitly; Python try/except ClientError blocks become
matches on Except results.
-/

set_option maxRecDepth 10000

set_option linter.unnecessarySeqFocus false

/-- A resource tag, a TagKey/TagValue pair as used by the provider. -/
structure Tag where
  tagKey : String
  tagValue : String
deriving DecidableEq

/-- An alias entry as returned by the provider list-aliases call. -/
structure AliasEntry where
  aliasName : String
  targetKeyId : String
deriving DecidableEq

/-- Provider-side record for one key: lifecycle state, tags, default policy. -/
structure KeyInfo where
  keyState : String
  tags : List Tag
  policy : String
deriving DecidableEq

/-- Provider-side data of one region: its keys (by ARN) and its aliases. -/
structure RegionData where
  keys : List (String × KeyInfo)
  aliases : List AliasEntry
deriving DecidableEq

/-- The provider world: region name to region data. -/
structure World where
  regions : List (String × RegionData)
deriving DecidableEq

def emptyRegion : RegionData := ⟨[], []⟩

def World.regionData (w : World) (r : String) : RegionData :=
  match w.regions.find? (fun p => p.1 == r) with
  | some p => p.2
  | none => emptyRegion

def RegionData.findKey (rd : RegionData) (arn : String) : Option KeyInfo :=
  match rd.keys.find? (fun p => p.1 == arn) with
  | some p => some p.2
  | none => none

def World.findKey (w : World) (r arn : String) : Option KeyInfo :=
  (w.regionData r).findKey arn

/-- Update the first binding of a key in an association list, inserting it
with a default value when absent. -/
def updateAssoc {α : Type} (l : List (String × α)) (k : String) (d : α) (f : α → α) :
    List (String × α) :=
  match l with
  | [] => [(k, f d)]
  | (k2, v) :: rest =>
    if k2 == k then (k2, f v) :: rest else (k2, v) :: updateAssoc rest k d f

def World.updateRegion (w : World) (r : String) (f : RegionData → RegionData) : World :=
  ⟨updateAssoc w.regions r emptyRegion f⟩

def RegionData.updateKey (rd : RegionData) (arn : String) (f : KeyInfo → KeyInfo) : RegionData :=
  { rd with keys := rd.keys.map (fun p => if p.1 == arn then (p.1, f p.2) else p) }

def RegionData.insertKey (rd : RegionData) (arn : String) (ki : KeyInfo) : RegionData :=
  { rd with keys := rd.keys ++ [(arn, ki)] }

def RegionData.addAlias (rd : RegionData) (a : AliasEntry) : RegionData :=
  { rd with aliases := rd.aliases ++ [a] }

/-- One provider API call, tagged with the region of the client that issued it. -/
inductive KMSCall where
  | describeKey (region arn : String)
  | disableKey (region arn : String)
  | enableKey (region arn : String)
  | tagResource (region arn : String) (tags : List Tag)
  | untagResource (region arn : String) (tagKeys : List String)
  | listResourceTags (region arn : String)
  | scheduleKeyDeletion (region arn : String) (days : Nat)
  | cancelKeyDeletion (region arn : String)
  | listAliases (region arn : String)
  | createAlias (region aliasName target : String)
  | getKeyPolicy (region arn policyName : String)
  | putKeyPolicy (region arn policyName policy : String)
  | replicateKey (region arn replicaRegion descr : String)
deriving DecidableEq

/-- Whether a call can mutate provider state. -/
def KMSCall.isMutating : KMSCall → Bool
  | .describeKey _ _ => false
  | .listResourceTags _ _ => false
  | .listAliases _ _ => false
  | .getKeyPolicy _ _ _ => false
  | _ => true

/-- The region of the client that issued the call. -/
def KMSCall.callRegion : KMSCall → String
  | .describeKey r _ => r
  | .disableKey r _ => r
  | .enableKey r _ => r
  | .tagResource r _ _ => r
  | .untagResource r _ _ => r
  | .listResourceTags r _ => r
  | .scheduleKeyDeletion r _ _ => r
  | .cancelKeyDeletion r _ => r
  | .listAliases r _ => r
  | .createAlias r _ _ => r
  | .getKeyPolicy r _ _ => r
  | .putKeyPolicy r _ _ _ => r
  | .replicateKey r _ _ _ => r

def isUntagCall : KMSCall → Bool
  | .untagResource _ _ _ => true
  | _ => false

def isScheduleCall : KMSCall → Bool
  | .scheduleKeyDeletion _ _ _ => true
  | _ => false

def isListAliasesCall : KMSCall → Bool
  | .listAliases _ _ => true
  | _ => false

inductive LogLevel where
  | info
  | warning
  | error
deriving DecidableEq

structure LogEntry where
  level : LogLevel
  msg : String
deriving DecidableEq

/-- Execution state threaded through the embedded code: the provider world,
the ordered trace of issued provider calls, and the log. -/
structure St where
  world : World
  calls : List KMSCall
  log : List LogEntry
deriving DecidableEq

def St.init (w : World) : St := ⟨w, [], []⟩

def St.record (s : St) (c : KMSCall) : St := { s with calls := s.calls ++ [c] }

def St.logI (s : St) (m : String) : St := { s with log := s.log ++ [⟨LogLevel.info, m⟩] }

def St.logW (s : St) (m : String) : St := { s with log := s.log ++ [⟨LogLevel.warning, m⟩] }

def St.logE (s : St) (m : String) : St := { s with log := s.log ++ [⟨LogLevel.error, m⟩] }

/-- A botocore ClientError, identified by its error code. -/
structure ClientError where
  code : String
deriving DecidableEq

def notFoundErr : ClientError := ⟨"NotFoundException"⟩

/-- Provider model of describe_key: the key state, or NotFoundException. -/
def kms_describe_key (region arn : String) (s : St) : Except ClientError String × St :=
  let s := s.record (.describeKey region arn)
  match s.world.findKey region arn with
  | some ki => (Except.ok ki.keyState, s)
  | none => (Except.error notFoundErr, s)

def setKeyState (w : World) (region arn st : String) : World :=
  w.updateRegion region (fun rd => rd.updateKey arn (fun ki => { ki with keyState := st }))

/-- Provider model of disable_key. -/
def kms_disable_key (region arn : String) (s : St) : Except ClientError Unit × St :=
  let s := s.record (.disableKey region arn)
  match s.world.findKey region arn with
  | some _ => (Except.ok (), { s with world := setKeyState s.world region arn "Disabled" })
  | none => (Except.error notFoundErr, s)

/-- Provider model of enable_key. -/
def kms_enable_key (region arn : String) (s : St) : Except ClientError Unit × St :=
  let s := s.record (.enableKey region arn)
  match s.world.findKey region arn with
  | some _ => (Except.ok (), { s with world := setKeyState s.world region arn "Enabled" })
  | none => (Except.error notFoundErr, s)

/-- Insert or replace one tag by TagKey. -/
def upsertTag (tags : List Tag) (t : Tag) : List Tag :=
  if tags.any (fun u => u.tagKey == t.tagKey) then
    tags.map (fun u => if u.tagKey == t.tagKey then t else u)
  else tags ++ [t]

/-- Provider model of tag_resource. -/
def kms_tag_resource (region arn : String) (ts : List Tag) (s : St) :
    Except ClientError Unit × St :=
  let s := s.record (.tagResource region arn ts)
  match s.world.findKey region arn with
  | some _ =>
    let w2 := s.world.updateRegion region
      (fun rd => rd.updateKey arn (fun ki => { ki with tags := ts.foldl upsertTag ki.tags }))
    (Except.ok (), { s with world := w2 })
  | none => (Except.error notFoundErr, s)

/-- Provider model of untag_resource: removing an absent tag is a no-op success. -/
def kms_untag_resource (region arn : String) (tagKeys : List String) (s : St) :
    Except ClientError Unit × St :=
  let s := s.record (.untagResource region arn tagKeys)
  match s.world.findKey region arn with
  | some _ =>
    let w2 := s.world.updateRegion region
      (fun rd => rd.updateKey arn
        (fun ki => { ki with tags := ki.tags.filter (fun t => !(tagKeys.contains t.tagKey)) }))
    (Except.ok (), { s with world := w2 })
  | none => (Except.error notFoundErr, s)

/-- Provider model of list_resource_tags. -/
def kms_list_resource_tags (region arn : String) (s : St) :
    Except ClientError (List Tag) × St :=
  let s := s.record (.listResourceTags region arn)
  match s.world.findKey region arn with
  | some ki => (Except.ok ki.tags, s)
  | none => (Except.error notFoundErr, s)

/-- Provider model of schedule_key_deletion. -/
def kms_schedule_key_deletion (region arn : String) (days : Nat) (s : St) :
    Except ClientError Unit × St :=
  let s := s.record (.scheduleKeyDeletion region arn days)
  match s.world.findKey region arn with
  | some _ => (Except.ok (), { s with world := setKeyState s.world region arn "PendingDeletion" })
  | none => (Except.error notFoundErr, s)

/-- Provider model of cancel_key_deletion: the resulting state is
provider-determined; the model uses Disabled. -/
def kms_cancel_key_deletion (region arn : String) (s : St) : Except ClientError Unit × St :=
  let s := s.record (.cancelKeyDeletion region arn)
  match s.world.findKey region arn with
  | some _ => (Except.ok (), { s with world := setKeyState s.world region arn "Disabled" })
  | none => (Except.error notFoundErr, s)

/-- Provider model of list_aliases with a KeyId argument: it errors when the
key is absent in the region and otherwise returns the alias entries the
region holds; the source itself filters them by target key id. -/
def kms_list_aliases (region arn : String) (s : St) :
    Except ClientError (List AliasEntry) × St :=
  let s := s.record (.listAliases region arn)
  match s.world.findKey region arn with
  | some _ => (Except.ok (s.world.regionData region).aliases, s)
  | none => (Except.error notFoundErr, s)

/-- Provider model of create_alias. -/
def kms_create_alias (region aliasName target : String) (s : St) :
    Except ClientError Unit × St :=
  let s := s.record (.createAlias region aliasName target)
  match s.world.findKey region target with
  | some _ =>
    let w2 := s.world.updateRegion region (fun rd => rd.addAlias ⟨aliasName, target⟩)
    (Except.ok (), { s with world := w2 })
  | none => (Except.error notFoundErr, s)

/-- Provider model of get_key_policy. -/
def kms_get_key_policy (region arn policyName : String) (s : St) :
    Except ClientError String × St :=
  let s := s.record (.getKeyPolicy region arn policyName)
  match s.world.findKey region arn with
  | some ki => (Except.ok ki.policy, s)
  | none => (Except.error notFoundErr, s)

/-- Provider model of put_key_policy. -/
def kms_put_key_policy (region arn policyName policy : String) (s : St) :
    Except ClientError Unit × St :=
  let s := s.record (.putKeyPolicy region arn policyName policy)
  match s.world.findKey region arn with
  | some _ =>
    let w2 := s.world.updateRegion region
      (fun rd => rd.updateKey arn (fun ki => { ki with policy := policy }))
    (Except.ok (), { s with world := w2 })
  | none => (Except.error notFoundErr, s)

/-- The ARN the provider model assigns to a fresh replica key. -/
def replicaArnOf (arn replicaRegion : String) : String :=
  arn ++ ":replica:" ++ replicaRegion

/-- Provider model of replicate_key: creates a fresh key in the replica
region and returns its ARN. -/
def kms_replicate_key (region arn replicaRegion descr : String) (s : St) :
    Except ClientError String × St :=
  let s := s.record (.replicateKey region arn replicaRegion descr)
  match s.world.findKey region arn with
  | some _ =>
    let w2 := s.world.updateRegion replicaRegion
      (fun rd => rd.insertKey (replicaArnOf arn replicaRegion) ⟨"Enabled", [], ""⟩)
    (Except.ok (replicaArnOf arn replicaRegion), { s with world := w2 })
  | none => (Except.error notFoundErr, s)

/-- Whether pat occurs at the head of the list. -/
def listStartsWith : List Char → List Char → Bool
  | [], _ => true
  | _ :: _, [] => false
  | p :: ps, c :: cs => p == c && listStartsWith ps cs

/-- Whether pat occurs anywhere inside the list. -/
def containsSeq (pat : List Char) : List Char → Bool
  | [] => pat.isEmpty
  | c :: cs => listStartsWith pat (c :: cs) || containsSeq pat cs

/-- Fuelled left-to-right replace-all on character lists; the fuel is the
length of the scanned list, so it never runs out. -/
def replaceAllFuel (pat rep : List Char) : Nat → List Char → List Char
  | _, [] => []
  | 0, l => l
  | fuel + 1, c :: cs =>
    if 0 < pat.length ∧ listStartsWith pat (c :: cs) = true then
      rep ++ replaceAllFuel pat rep fuel (cs.drop (pat.length - 1))
    else
      c :: replaceAllFuel pat rep fuel cs

/-- Python str.replace: replace every occurrence of pat by rep, scanning left
to right without overlap. -/
def pyReplace (s pat rep : String) : String :=
  String.mk (replaceAllFuel pat.toList rep.toList s.toList.length s.toList)

/-- Splits a character list at every slash, accumulating the current piece. -/
def splitSlashAux : List Char → List Char → List String
  | [], acc => [String.mk acc.reverse]
  | c :: cs, acc =>
    if c == '/' then String.mk acc.reverse :: splitSlashAux cs []
    else splitSlashAux cs (c :: acc)

/-- Python arn.split("/")[-1]: the last slash-separated segment. -/
def lastSegment (arn : String) : String :=
  (splitSlashAux arn.toList []).getLastD ""

/-- Source key_status: describe the key, mapping NotFoundException to the
sentinel state NotFound and re-raising any other error. -/
def key_status (region arn : String) (s : St) : Except ClientError String × St :=
  match kms_describe_key region arn s with
  | (Except.ok st, s2) => (Except.ok st, s2)
  | (Except.error e, s2) =>
    if e.code == "NotFoundException" then (Except.ok "NotFound", s2)
    else (Except.error e, s2)

/-- Loop body of source disable_keys for one ARN; today stands for the
datetime.now date string.  Only the dry-run branch resolves the status, and
only that branch lacks a try/except, so its resolver errors would propagate. -/
def disable_one (region arn : String) (dry_run : Bool) (today : String) (s : St) :
    Except ClientError Unit × St :=
  if dry_run then
    match key_status region arn s with
    | (Except.ok status, s2) =>
      if status != "NotFound" then
        (Except.ok (), s2.logI ("Key " ++ arn ++ " would be disabled. (Dry Run)"))
      else
        (Except.ok (), s2.logI ("Key " ++ arn ++ " not found. (Dry Run)"))
    | (Except.error e, s2) => (Except.error e, s2)
  else
    match kms_disable_key region arn s with
    | (Except.ok _, s2) =>
      match kms_tag_resource region arn [⟨"DisabledOn", today⟩] s2 with
      | (Except.ok _, s3) => (Except.ok (), s3.logI ("Key " ++ arn ++ " disabled"))
      | (Except.error e, s3) =>
        (Except.ok (), s3.logE ("Failed to disable key " ++ arn ++ ": " ++ e.code))
    | (Except.error e, s2) =>
      (Except.ok (), s2.logE ("Failed to disable key " ++ arn ++ ": " ++ e.code))

/-- Source disable_keys. -/
def disable_keys (region : String) (key_arns : List String) (dry_run : Bool) (today : String)
    (s : St) : Except ClientError Unit × St :=
  match key_arns with
  | [] => (Except.ok (), s)
  | arn :: rest =>
    match disable_one region arn dry_run today s with
    | (Except.ok _, s2) => disable_keys region rest dry_run today s2
    | (Except.error e, s2) => (Except.error e, s2)

/-- Loop body of source enable_keys for one ARN; the whole body sits in a
try/except ClientError, so every provider error is logged and absorbed. -/
def enable_one (region arn : String) (s : St) : St :=
  match key_status region arn s with
  | (Except.error e, s2) => s2.logE ("Failed to enable key " ++ arn ++ ": " ++ e.code)
  | (Except.ok status, s2) =>
    if status == "NotFound" then s2.logI ("Key " ++ arn ++ " not found")
    else
      match kms_enable_key region arn s2 with
      | (Except.error e, s3) => s3.logE ("Failed to enable key " ++ arn ++ ": " ++ e.code)
      | (Except.ok _, s3) =>
        match kms_list_resource_tags region arn s3 with
        | (Except.error e, s4) => s4.logE ("Failed to enable key " ++ arn ++ ": " ++ e.code)
        | (Except.ok tags, s4) =>
          if tags.any (fun t => t.tagKey == "DisabledOn") then
            match kms_untag_resource region arn ["DisabledOn"] s4 with
            | (Except.error e, s5) =>
              s5.logE ("Failed to enable key " ++ arn ++ ": " ++ e.code)
            | (Except.ok _, s5) => s5.logI ("Key " ++ arn ++ " enabled")
          else s4.logI ("Key " ++ arn ++ " enabled")

/-- Source enable_keys. -/
def enable_keys (region : String) (key_arns : List String) (s : St) : St :=
  match key_arns with
  | [] => s
  | arn :: rest => enable_keys region rest (enable_one region arn s)

def excluded_services : List String := ["dynamodb", "efs", "elasticache", "rds", "s3"]

/-- The except-branch of source schedule_key_deletion: NotFoundException is
informational, anything else an error. -/
def schedule_catch (arn : String) (e : ClientError) (s : St) : St :=
  if e.code == "NotFoundException" then s.logI ("Key " ++ arn ++ " not found.")
  else s.logE ("Failed to schedule deletion for key " ++ arn ++ ": " ++ e.code)

/-- Tail of the schedule loop body, after the excluded-service check. -/
def schedule_tail (region arn : String) (deletion_days : Nat) (dry_run : Bool)
    (tags : List Tag) (s : St) : St :=
  match tags.find? (fun t => t.tagKey == "DisabledOn") with
  | some _ =>
    if dry_run then
      s.logI ("Key " ++ arn ++ " would be scheduled for deletion in " ++
        toString deletion_days ++ " days. (Dry Run)")
    else
      match kms_schedule_key_deletion region arn deletion_days s with
      | (Except.ok _, s2) =>
        s2.logI ("Key " ++ arn ++ " scheduled for deletion in " ++
          toString deletion_days ++ " days.")
      | (Except.error e, s2) => schedule_catch arn e s2
  | none => s.logI ("Key " ++ arn ++ " is not disabled — skipping deletion.")

/-- Loop body of source schedule_key_deletion for one ARN. -/
def schedule_one (region arn : String) (deletion_days : Nat) (dry_run : Bool) (s : St) : St :=
  match key_status region arn s with
  | (Except.error e, s2) => schedule_catch arn e s2
  | (Except.ok status, s2) =>
    if status == "PendingDeletion" then
      s2.logI ("Key " ++ arn ++ " already scheduled for deletion.")
    else
      match kms_list_resource_tags region arn s2 with
      | (Except.error e, s3) => schedule_catch arn e s3
      | (Except.ok tags, s3) =>
        match tags.find? (fun t => t.tagKey == "service_name") with
        | some t =>
          if excluded_services.contains t.tagValue then
            s3.logW ("Key " ++ arn ++ " is in use by " ++ t.tagValue ++ " — skipping deletion.")
          else schedule_tail region arn deletion_days dry_run tags s3
        | none => schedule_tail region arn deletion_days dry_run tags s3

/-- Source schedule_key_deletion (the list-level operation). -/
def schedule_key_deletion (region : String) (key_arns : List String) (deletion_days : Nat)
    (dry_run : Bool) (s : St) : St :=
  match key_arns with
  | [] => s
  | arn :: rest =>
    schedule_key_deletion region rest deletion_days dry_run
      (schedule_one region arn deletion_days dry_run s)

/-- Loop body of source cancel_key_deletion for one ARN. -/
def cancel_one (region arn : String) (s : St) : St :=
  match key_status region arn s with
  | (Except.error e, s2) =>
    s2.logE ("Error cancelling deletion for key " ++ arn ++ ": " ++ e.code)
  | (Except.ok status, s2) =>
    if ["PendingDeletion", "PendingReplicaDeletion"].contains status then
      match kms_cancel_key_deletion region arn s2 with
      | (Except.ok _, s3) => s3.logI ("Cancelled deletion for key " ++ arn)
      | (Except.error e, s3) =>
        s3.logE ("Error cancelling deletion for key " ++ arn ++ ": " ++ e.code)
    else s2.logI ("Key " ++ arn ++ " is not scheduled for deletion — nothing to cancel.")

/-- Source cancel_key_deletion. -/
def cancel_key_deletion (region : String) (key_arns : List String) (s : St) : St :=
  match key_arns with
  | [] => s
  | arn :: rest => cancel_key_deletion region rest (cancel_one region arn s)

/-- Loop body of source tag_srk_migration for one ARN. -/
def tag_srk_migration_one (region arn : String) (s : St) : St :=
  match kms_tag_resource region arn [⟨"MigrationStatus", "completed"⟩] s with
  | (Except.ok _, s2) => s2.logI ("Tagged key " ++ arn ++ " with MigrationStatus=completed")
  | (Except.error e, s2) => s2.logE ("Failed to tag key " ++ arn ++ ": " ++ e.code)

/-- Source tag_srk_migration. -/
def tag_srk_migration (region : String) (key_arns : List String) (s : St) : St :=
  match key_arns with
  | [] => s
  | arn :: rest => tag_srk_migration region rest (tag_srk_migration_one region arn s)

/-- Loop body of source remove_tag_srk_migration for one ARN. -/
def remove_tag_srk_migration_one (region arn : String) (s : St) : St :=
  match kms_untag_resource region arn ["MigrationStatus"] s with
  | (Except.ok _, s2) => s2.logI ("Removed MigrationStatus tag from key " ++ arn)
  | (Except.error e, s2) => s2.logE ("Failed to remove tag from key " ++ arn ++ ": " ++ e.code)

/-- Source remove_tag_srk_migration. -/
def remove_tag_srk_migration (region : String) (key_arns : List String) (s : St) : St :=
  match key_arns with
  | [] => s
  | arn :: rest => remove_tag_srk_migration region rest (remove_tag_srk_migration_one region arn s)

/-- Source get_primary_alias: the first listed alias whose target equals the
last ARN segment, or none; list-aliases errors are logged and yield none. -/
def get_primary_alias (region key_arn : String) (s : St) : Option String × St :=
  match kms_list_aliases region key_arn s with
  | (Except.ok aliases, s2) =>
    match aliases.find? (fun a => a.targetKeyId == lastSegment key_arn) with
    | some a => (some a.aliasName, s2)
    | none => (none, s2)
  | (Except.error e, s2) =>
    (none, s2.logE ("Error getting alias for key " ++ key_arn ++ ": " ++ e.code))

/-- The alias substitution performed by source replicate_key. -/
def derive_secondary_alias (primary_alias secondary_region : String) : String :=
  pyReplace primary_alias "_ca-central-1" ("_" ++ secondary_region)

/-- Source replicate_key: the primary client is always built for region
ca-central-1, the secondary client for the given secondary region. -/
def replicate_key (primary_key_arn primary_alias secondary_region : String) (dry_run : Bool)
    (s : St) : St :=
  let secondary_alias := derive_secondary_alias primary_alias secondary_region
  match kms_get_key_policy "ca-central-1" primary_key_arn "default" s with
  | (Except.error e, s2) =>
    s2.logE ("Error replicating key " ++ primary_key_arn ++ ": " ++ e.code)
  | (Except.ok policy, s2) =>
    match kms_list_resource_tags "ca-central-1" primary_key_arn s2 with
    | (Except.error e, s3) =>
      s3.logE ("Error replicating key " ++ primary_key_arn ++ ": " ++ e.code)
    | (Except.ok tags, s3) =>
      if dry_run then
        s3.logI ("Would replicate key " ++ primary_key_arn ++ " to " ++ secondary_region ++
          " with alias " ++ secondary_alias ++ ". (Dry Run)")
      else
        match kms_replicate_key "ca-central-1" primary_key_arn secondary_region "Replica key" s3 with
        | (Except.error e, s4) =>
          s4.logE ("Error replicating key " ++ primary_key_arn ++ ": " ++ e.code)
        | (Except.ok replica_arn, s4) =>
          match kms_put_key_policy secondary_region replica_arn "default" policy s4 with
          | (Except.error e, s5) =>
            s5.logE ("Error replicating key " ++ primary_key_arn ++ ": " ++ e.code)
          | (Except.ok _, s5) =>
            match kms_create_alias secondary_region secondary_alias replica_arn s5 with
            | (Except.error e, s6) =>
              s6.logE ("Error replicating key " ++ primary_key_arn ++ ": " ++ e.code)
            | (Except.ok _, s6) =>
              if tags != [] then
                match kms_tag_resource secondary_region replica_arn tags s6 with
                | (Except.error e, s7) =>
                  s7.logE ("Error replicating key " ++ primary_key_arn ++ ": " ++ e.code)
                | (Except.ok _, s7) =>
                  s7.logI ("Replica key created with alias " ++ secondary_alias)
              else s6.logI ("Replica key created with alias " ++ secondary_alias)

/-- The lambda invocation event, after Python event.get defaulting. -/
structure Event where
  aws_region : String
  action : Option String
  key_arns : List String
  dry_run : Bool
  deletion_schedule_days : Nat
deriving DecidableEq

structure LambdaResponse where
  statusCode : Nat
  body : String
deriving DecidableEq

def blocked_accounts : List String := ["111122223333"]

/-- How Python prints an optional string inside an f-string. -/
def pyOptStr : Option String → String
  | some a => a
  | none => "None"

/-- Python truthiness of an optional string: None and the empty string are falsy. -/
def pyTruthy : Option String → Bool
  | some a => a != ""
  | none => false

/-- Per-key body of the replicate_ireland branch of lambda_handler: the alias
lookup uses the request-region client, replication itself the fixed clients. -/
def replicate_dispatch_one (aws_region arn secondary_region : String) (dry_run : Bool)
    (s : St) : St :=
  match get_primary_alias aws_region arn s with
  | (a, s2) =>
    if pyTruthy a then replicate_key arn (a.getD "") secondary_region dry_run s2
    else s2.logW ("No alias found for " ++ arn ++ ", skipping replication.")

/-- The replicate_ireland loop of lambda_handler. -/
def replicate_loop (aws_region : String) (key_arns : List String) (secondary_region : String)
    (dry_run : Bool) (s : St) : St :=
  match key_arns with
  | [] => s
  | arn :: rest =>
    replicate_loop aws_region rest secondary_region dry_run
      (replicate_dispatch_one aws_region arn secondary_region dry_run s)

/-- Source lambda_handler.  The caller account id comes from the external STS
call and the current date from the clock; both are passed as parameters. -/
def lambda_handler (event : Event) (account_id today : String) (s : St) :
    Except ClientError LambdaResponse × St :=
  let aws_region := event.aws_region
  let action := event.action
  let key_arns := event.key_arns
  let dry_run := event.dry_run
  let deletion_days := event.deletion_schedule_days
  if blocked_accounts.contains account_id then
    (Except.ok ⟨403, "Execution not allowed in this account"⟩,
      s.logW ("Execution blocked in account " ++ account_id))
  else if key_arns == [] then
    (Except.ok ⟨400, "No key ARNs specified"⟩, s.logE "No key ARNs provided.")
  else if action == some "disable" then
    match disable_keys aws_region key_arns dry_run today s with
    | (Except.ok _, s2) => (Except.ok ⟨200, "Action disable completed"⟩, s2)
    | (Except.error e, s2) => (Except.error e, s2)
  else if action == some "enable" then
    (Except.ok ⟨200, "Action enable completed"⟩, enable_keys aws_region key_arns s)
  else if action == some "schedule_deletion" then
    (Except.ok ⟨200, "Action schedule_deletion completed"⟩,
      schedule_key_deletion aws_region key_arns deletion_days dry_run s)
  else if action == some "cancel_deletion" then
    (Except.ok ⟨200, "Action cancel_deletion completed"⟩,
      cancel_key_deletion aws_region key_arns s)
  else if action == some "tag_srk_migration" then
    (Except.ok ⟨200, "Action tag_srk_migration completed"⟩,
      tag_srk_migration aws_region key_arns s)
  else if action == some "remove_tag_srk_migration" then
    (Except.ok ⟨200, "Action remove_tag_srk_migration completed"⟩,
      remove_tag_srk_migration aws_region key_arns s)
  else if action == some "replicate_ireland" then
    (Except.ok ⟨200, "Action replicate_ireland completed"⟩,
      replicate_loop aws_region key_arns "eu-west-1" dry_run s)
  else
    (Except.ok ⟨400, "Unsupported action: " ++ pyOptStr action⟩,
      s.logE ("Unsupported action: " ++ pyOptStr action))

/-- The action names the dispatcher recognizes. -/
def supported_actions : List String :=
  ["disable", "enable", "schedule_deletion", "cancel_deletion",
   "tag_srk_migration", "remove_tag_srk_migration", "replicate_ireland"]

def recognizedAction : Option String → Bool
  | some a => supported_actions.contains a
  | none => false

/-- Resolved lifecycle state of a key in the world: the stored state, or the
NotFound sentinel when the key does not exist. -/
def resolvedState (w : World) (region arn : String) : String :=
  match w.findKey region arn with
  | some ki => ki.keyState
  | none => "NotFound"

/-- The value of the first service_name tag of the key, if any. -/
def serviceTagValue (w : World) (region arn : String) : Option String :=
  match w.findKey region arn with
  | some ki =>
    match ki.tags.find? (fun t => t.tagKey == "service_name") with
    | some t => some t.tagValue
    | none => none
  | none => none

/-- Whether the key carries a service_name tag whose value is excluded. -/
def serviceExcluded (w : World) (region arn : String) : Bool :=
  match serviceTagValue w region arn with
  | some v => excluded_services.contains v
  | none => false

/-- Whether the key carries a DisabledOn tag. -/
def hasDisabledOn (w : World) (region arn : String) : Bool :=
  match w.findKey region arn with
  | some ki => (ki.tags.find? (fun t => t.tagKey == "DisabledOn")).isSome
  | none => false

/-- A trace containing only read-only provider calls. -/
def readOnlyTrace (cs : List KMSCall) : Prop := ∀ c ∈ cs, c.isMutating = false

instance (cs : List KMSCall) : Decidable (readOnlyTrace cs) := by
  unfold readOnlyTrace
  infer_instance

/-- Sample ARN used in concrete witnesses and counterexamples. -/
def sampleArn : String := "arn:aws:kms:us-east-1:111:key/abc"

/-- World for the C2 counterexample: the key is already PendingDeletion and
owned by an excluded service. -/
def cexWorldC2 : World :=
  ⟨[("us-east-1", ⟨[("k2", ⟨"PendingDeletion",
    [⟨"service_name", "rds"⟩, ⟨"DisabledOn", "2026-01-01"⟩], "p"⟩)], []⟩)]⟩

def c10Arn : String := "arn:aws:kms:x:111:key/abc"

def c10Primary : KeyInfo := ⟨"Enabled", [], "policy-doc"⟩

/-- World for the C10 counterexample: the primary key exists in ca-central-1,
and only the us-east-1 region holds an alias for it. -/
def c10World : World :=
  ⟨[("ca-central-1", ⟨[(c10Arn, c10Primary)], []⟩),
    ("us-east-1", ⟨[(c10Arn, c10Primary)], [⟨"alias_ca-central-1_srk", "abc"⟩]⟩)]⟩

def c10Event1 : Event := ⟨"us-east-1", some "replicate_ireland", [c10Arn], false, 30⟩

def c10Event2 : Event := ⟨"eu-central-1", some "replicate_ireland", [c10Arn], false, 30⟩

/-- World for witnesses that need an existing enabled key carrying a
DisabledOn tag. -/
def wDisabledKey : World :=
  ⟨[("us-east-1", ⟨[("k1", ⟨"Enabled", [⟨"DisabledOn", "2026-01-01"⟩], "p"⟩)], []⟩)]⟩

/-- World for the C9 witness: the key exists but its region has no aliases. -/
def wNoAlias : World := ⟨[("us-east-1", ⟨[("k1", ⟨"Enabled", [], "p"⟩)], []⟩)]⟩

/-- World holding one key scheduled for deletion. -/
def wPending : World :=
  ⟨[("us-east-1", ⟨[("kp", ⟨"PendingDeletion", [], "p"⟩)], []⟩)]⟩

@[simp] theorem stRecordWorld (s : St) (c : KMSCall) : (s.record c).world = s.world := rfl

@[simp] theorem stRecordCalls (s : St) (c : KMSCall) : (s.record c).calls = s.calls ++ [c] := rfl

@[simp] theorem stRecordLog (s : St) (c : KMSCall) : (s.record c).log = s.log := rfl

@[simp] theorem stLogIWorld (s : St) (m : String) : (s.logI m).world = s.world := rfl

@[simp] theorem stLogICalls (s : St) (m : String) : (s.logI m).calls = s.calls := rfl

@[simp] theorem stLogILog (s : St) (m : String) :
    (s.logI m).log = s.log ++ [⟨LogLevel.info, m⟩] := rfl

@[simp] theorem stLogWWorld (s : St) (m : String) : (s.logW m).world = s.world := rfl

@[simp] theorem stLogWCalls (s : St) (m : String) : (s.logW m).calls = s.calls := rfl

@[simp] theorem stLogWLog (s : St) (m : String) :
    (s.logW m).log = s.log ++ [⟨LogLevel.warning, m⟩] := rfl

@[simp] theorem stLogEWorld (s : St) (m : String) : (s.logE m).world = s.world := rfl

@[simp] theorem stLogECalls (s : St) (m : String) : (s.logE m).calls = s.calls := rfl

@[simp] theorem stLogELog (s : St) (m : String) :
    (s.logE m).log = s.log ++ [⟨LogLevel.error, m⟩] := rfl

@[simp] theorem stInitWorld (w : World) : (St.init w).world = w := rfl

@[simp] theorem stInitCalls (w : World) : (St.init w).calls = [] := rfl

@[simp] theorem stInitLog (w : World) : (St.init w).log = [] := rfl

theorem find?_updateAssoc (l : List (String × RegionData)) (r : String) (d : RegionData)
    (f : RegionData → RegionData) :
    (updateAssoc l r d f).find? (fun p => p.1 == r) =
      some ((l.find? (fun p => p.1 == r)).elim (r, f d) (fun p => (p.1, f p.2))) := by
  induction l with
  | nil => simp [updateAssoc]
  | cons hd tl ih =>
    by_cases h : hd.1 = r
    · simp [updateAssoc, List.find?_cons, h]
    · simp [updateAssoc, List.find?_cons, h, ih]

theorem find?_map_update (l : List (String × KeyInfo)) (arn : String) (f : KeyInfo → KeyInfo) :
    (l.map (fun p => if p.1 == arn then (p.1, f p.2) else p)).find? (fun p => p.1 == arn) =
      (l.find? (fun p => p.1 == arn)).map (fun p => (p.1, f p.2)) := by
  induction l with
  | nil => simp
  | cons hd tl ih =>
    by_cases h : hd.1 = arn
    · simp [List.find?_cons, h]
    · have hb : (hd.1 == arn) = false := by simp [h]
      simp only [List.map_cons, hb, Bool.false_eq_true, if_false]
      rw [List.find?_cons_of_neg _ (by simp [h]), List.find?_cons_of_neg _ (by simp [h])]
      exact ih

theorem regionData_updateRegion_self (w : World) (r : String) (f : RegionData → RegionData) :
    (w.updateRegion r f).regionData r = f (w.regionData r) := by
  show World.regionData ⟨updateAssoc w.regions r emptyRegion f⟩ r = _
  unfold World.regionData
  rw [show (⟨updateAssoc w.regions r emptyRegion f⟩ : World).regions
        = updateAssoc w.regions r emptyRegion f from rfl,
      find?_updateAssoc]
  rcases h : w.regions.find? (fun p => p.1 == r) with _ | p <;> simp [h]

theorem findKey_updateKey_self (rd : RegionData) (arn : String) (f : KeyInfo → KeyInfo) :
    (rd.updateKey arn f).findKey arn = (rd.findKey arn).map f := by
  unfold RegionData.updateKey RegionData.findKey
  simp only [find?_map_update]
  rcases h : rd.keys.find? (fun p => p.1 == arn) with _ | p <;> simp [h]

theorem findKey_updateKeyWorld (w : World) (region arn : String) (g : KeyInfo → KeyInfo) :
    (w.updateRegion region (fun rd => rd.updateKey arn g)).findKey region arn =
      (w.findKey region arn).map g := by
  unfold World.findKey
  rw [regionData_updateRegion_self, findKey_updateKey_self]

theorem findKey_setKeyState_self (w : World) (region arn st : String) :
    (setKeyState w region arn st).findKey region arn =
      (w.findKey region arn).map (fun ki => { ki with keyState := st }) := by
  unfold setKeyState
  exact findKey_updateKeyWorld w region arn _

theorem filter_no_disabledOn (l : List Tag) :
    (l.filter (fun t => !((["DisabledOn"] : List String).contains t.tagKey))).any
      (fun t => t.tagKey == "DisabledOn") = false := by
  induction l with
  | nil => simp
  | cons hd tl ih =>
    by_cases h : hd.tagKey = "DisabledOn"
    · simp [List.filter_cons, h, ih]
    · simp [List.filter_cons, h, ih]

/-- C1 (amended): for a key whose resolved state is NotFound (the key is absent), enable,
scheduleDeletion and cancelDeletion never issue any mutating provider call and leave the
provider world unchanged, reporting not-found (enable, scheduleDeletion) or
nothing-to-cancel (cancelDeletion); disable with dryRun = true likewise reports not-found
without any call beyond describe_key; but disable with dryRun = false issues the mutating
disable_key call, which fails, and reports a disable failure instead of not-found. -/
theorem claim1_notfound_amended (w : World) (region arn today : String)
    (h : w.findKey region arn = none) :
    ((enable_one region arn (St.init w)).world = w ∧
      readOnlyTrace (enable_one region arn (St.init w)).calls ∧
      (enable_one region arn (St.init w)).log =
        [⟨LogLevel.info, "Key " ++ arn ++ " not found"⟩]) ∧
    (∀ days dry, (schedule_one region arn days dry (St.init w)).world = w ∧
      readOnlyTrace (schedule_one region arn days dry (St.init w)).calls ∧
      (schedule_one region arn days dry (St.init w)).log =
        [⟨LogLevel.info, "Key " ++ arn ++ " not found."⟩]) ∧
    ((cancel_one region arn (St.init w)).world = w ∧
      readOnlyTrace (cancel_one region arn (St.init w)).calls ∧
      (cancel_one region arn (St.init w)).log =
        [⟨LogLevel.info,
          "Key " ++ arn ++ " is not scheduled for deletion — nothing to cancel."⟩]) ∧
    ((disable_one region arn true today (St.init w)).2.world = w ∧
      readOnlyTrace (disable_one region arn true today (St.init w)).2.calls ∧
      (disable_one region arn true today (St.init w)).2.log =
        [⟨LogLevel.info, "Key " ++ arn ++ " not found. (Dry Run)"⟩]) ∧
    ((disable_one region arn false today (St.init w)).2.world = w ∧
      (disable_one region arn false today (St.init w)).2.calls =
        [KMSCall.disableKey region arn] ∧
      (disable_one region arn false today (St.init w)).2.log =
        [⟨LogLevel.error, "Failed to disable key " ++ arn ++ ": " ++ "NotFoundException"⟩]) := by
  refine ⟨⟨?_, ?_, ?_⟩, fun days dry => ⟨?_, ?_, ?_⟩, ⟨?_, ?_, ?_⟩, ⟨?_, ?_, ?_⟩,
    ⟨?_, ?_, ?_⟩⟩ <;>
  simp [enable_one, schedule_one, cancel_one, disable_one, key_status, kms_describe_key,
    kms_disable_key, kms_list_resource_tags, schedule_catch, St.init, h, notFoundErr,
    readOnlyTrace, KMSCall.isMutating]

/-- Counterexample to C1 as stated: for a key that does not exist (resolved state
NotFound), the disable operation with dryRun = false still issues a mutating provider
call (disable_key), and its log never reports not-found. -/
theorem claim1_cex :
    resolvedState ⟨[]⟩ "us-east-1" sampleArn = "NotFound" ∧
    ((disable_one "us-east-1" sampleArn false "2026-10-12" (St.init ⟨[]⟩)).2.calls.any
      (fun c => c.isMutating)) = true ∧
    ((disable_one "us-east-1" sampleArn false "2026-10-12" (St.init ⟨[]⟩)).2.log.all
      (fun e => !(e.msg == "Key " ++ sampleArn ++ " not found"))) = true := by decide

/-- Counterexample to C2 as stated: a key whose service_name tag value rds is in the
exclusion set but whose state is already PendingDeletion is skipped with an informational
already-scheduled message and no warning at all, so the skips-with-a-warning part of the
claim fails; no schedule_key_deletion call is issued. -/
theorem claim2_cex :
    serviceTagValue cexWorldC2 "us-east-1" "k2" = some "rds" ∧
    excluded_services.contains "rds" = true ∧
    ((schedule_one "us-east-1" "k2" 30 false (St.init cexWorldC2)).calls.all
      (fun c => !(isScheduleCall c))) = true ∧
    ((schedule_one "us-east-1" "k2" 30 false (St.init cexWorldC2)).log.all
      (fun e => !(e.level == LogLevel.warning))) = true := by decide

/-- C2 (amended): for every key carrying a service_name tag whose value is in the
exclusion set, scheduleDeletion never mutates the provider world and issues only
read-only calls, regardless of the DisabledOn tag and of dryRun; the skip is logged with
a warning exactly when the key is not already PendingDeletion (an already pending key is
skipped earlier with an informational message instead). -/
theorem claim2_amended (w : World) (region arn v : String) (days : Nat) (dry : Bool)
    (h : serviceTagValue w region arn = some v)
    (hex : excluded_services.contains v = true) :
    (schedule_one region arn days dry (St.init w)).world = w ∧
    readOnlyTrace (schedule_one region arn days dry (St.init w)).calls ∧
    (resolvedState w region arn ≠ "PendingDeletion" →
      (schedule_one region arn days dry (St.init w)).log =
        [⟨LogLevel.warning, "Key " ++ arn ++ " is in use by " ++ v ++ " — skipping deletion."⟩]) := by
  rcases hk : w.findKey region arn with _ | ki
  · simp [serviceTagValue, hk] at h
  · rcases hf : ki.tags.find? (fun t => t.tagKey == "service_name") with _ | t
    · simp [serviceTagValue, hk, hf] at h
    · have hv : t.tagValue = v := by simpa [serviceTagValue, hk, hf] using h
      by_cases hp : ki.keyState = "PendingDeletion"
      · refine ⟨?_, ?_, ?_⟩ <;>
        simp [schedule_one, key_status, kms_describe_key, St.init, hk, hp, resolvedState,
          readOnlyTrace, KMSCall.isMutating]
      · have hmem : v ∈ excluded_services := by simpa using hex
        refine ⟨?_, ?_, ?_⟩ <;>
        simp [schedule_one, key_status, kms_describe_key, kms_list_resource_tags, St.init,
          hk, hp, hf, hv, hmem, resolvedState, readOnlyTrace, KMSCall.isMutating]

theorem disable_one_dry (region arn today : String) (s : St) :
    ∃ s2, disable_one region arn true today s = (Except.ok (), s2) ∧
      s2.world = s.world ∧ s2.calls = s.calls ++ [KMSCall.describeKey region arn] := by
  unfold disable_one key_status kms_describe_key
  rcases hk : s.world.findKey region arn with _ | ki
  · refine ⟨(s.record (KMSCall.describeKey region arn)).logI
        ("Key " ++ arn ++ " not found. (Dry Run)"), ?_, by simp, by simp⟩
    simp [hk, notFoundErr]
  · by_cases hs : ki.keyState = "NotFound"
    · refine ⟨(s.record (KMSCall.describeKey region arn)).logI
          ("Key " ++ arn ++ " not found. (Dry Run)"), ?_, by simp, by simp⟩
      simp [hk, hs]
    · refine ⟨(s.record (KMSCall.describeKey region arn)).logI
          ("Key " ++ arn ++ " would be disabled. (Dry Run)"), ?_, by simp, by simp⟩
      simp [hk, hs]

theorem disable_keys_dry (region today : String) (arns : List String) (s : St) :
    (disable_keys region arns true today s).1 = Except.ok () ∧
    (disable_keys region arns true today s).2.world = s.world ∧
    ∃ cs, (disable_keys region arns true today s).2.calls = s.calls ++ cs ∧
      readOnlyTrace cs := by
  induction arns generalizing s with
  | nil => exact ⟨rfl, rfl, [], by simp [disable_keys], by simp [readOnlyTrace]⟩
  | cons arn rest ih =>
    obtain ⟨s2, he, hw, hc⟩ := disable_one_dry region arn today s
    obtain ⟨ih1, ih2, cs, ihc, ihr⟩ := ih s2
    refine ⟨?_, ?_, KMSCall.describeKey region arn :: cs, ?_, ?_⟩
    · rw [disable_keys, he]; exact ih1
    · rw [disable_keys, he]; rw [ih2, hw]
    · rw [disable_keys, he, ihc, hc]; simp
    · intro c hcm
      rcases List.mem_cons.mp hcm with h1 | h2
      · subst h1; rfl
      · exact ihr c h2

theorem schedule_tail_dry (region arn : String) (days : Nat) (tags : List Tag) (s : St) :
    (schedule_tail region arn days true tags s).world = s.world ∧
    (schedule_tail region arn days true tags s).calls = s.calls := by
  unfold schedule_tail
  rcases hd : tags.find? (fun t => t.tagKey == "DisabledOn") with _ | t <;> simp [hd]

theorem schedule_one_dry (region arn : String) (days : Nat) (s : St) :
    (schedule_one region arn days true s).world = s.world ∧
    ∃ cs, (schedule_one region arn days true s).calls = s.calls ++ cs ∧
      readOnlyTrace cs := by
  unfold schedule_one key_status kms_describe_key kms_list_resource_tags schedule_catch
  rcases hk : s.world.findKey region arn with _ | ki
  · refine ⟨by simp [hk, notFoundErr],
      [KMSCall.describeKey region arn, KMSCall.listResourceTags region arn],
      by simp [hk, notFoundErr], ?_⟩
    simp [readOnlyTrace, KMSCall.isMutating]
  · by_cases hp : ki.keyState = "PendingDeletion"
    · refine ⟨by simp [hk, hp], [KMSCall.describeKey region arn], by simp [hk, hp], ?_⟩
      simp [readOnlyTrace, KMSCall.isMutating]
    · have h2 := schedule_tail_dry region arn days ki.tags
        ((s.record (KMSCall.describeKey region arn)).record (KMSCall.listResourceTags region arn))
      rcases hf : ki.tags.find? (fun t => t.tagKey == "service_name") with _ | t
      · refine ⟨?_, [KMSCall.describeKey region arn, KMSCall.listResourceTags region arn], ?_, ?_⟩
        · simp [hk, hp, hf, h2.1]
        · simp [hk, hp, hf, h2.2]
        · simp [readOnlyTrace, KMSCall.isMutating]
      · by_cases hex : excluded_services.contains t.tagValue
        · have hmem : t.tagValue ∈ excluded_services := by simpa using hex
          refine ⟨?_, [KMSCall.describeKey region arn, KMSCall.listResourceTags region arn], ?_, ?_⟩
          · simp [hk, hp, hf, hmem]
          · simp [hk, hp, hf, hmem]
          · simp [readOnlyTrace, KMSCall.isMutating]
        · have hmem : t.tagValue ∉ excluded_services := by simpa using hex
          refine ⟨?_, [KMSCall.describeKey region arn, KMSCall.listResourceTags region arn], ?_, ?_⟩
          · simp [hk, hp, hf, hmem, h2.1]
          · simp [hk, hp, hf, hmem, h2.2]
          · simp [readOnlyTrace, KMSCall.isMutating]

theorem schedule_keys_dry (region : String) (arns : List String) (days : Nat) (s : St) :
    (schedule_key_deletion region arns days true s).world = s.world ∧
    ∃ cs, (schedule_key_deletion region arns days true s).calls = s.calls ++ cs ∧
      readOnlyTrace cs := by
  induction arns generalizing s with
  | nil => exact ⟨rfl, [], by simp [schedule_key_deletion], by simp [readOnlyTrace]⟩
  | cons arn rest ih =>
    obtain ⟨hw, cs1, hc1, hr1⟩ := schedule_one_dry region arn days s
    obtain ⟨ih1, cs2, ihc, ihr⟩ := ih (schedule_one region arn days true s)
    refine ⟨?_, cs1 ++ cs2, ?_, ?_⟩
    · rw [schedule_key_deletion, ih1, hw]
    · rw [schedule_key_deletion, ihc, hc1, List.append_assoc]
    · intro c hcm
      rcases List.mem_append.mp hcm with h1 | h2
      · exact hr1 c h1
      · exact ihr c h2

theorem replicate_key_dry (arn pal sr : String) (s : St) :
    (replicate_key arn pal sr true s).world = s.world ∧
    ∃ cs, (replicate_key arn pal sr true s).calls = s.calls ++ cs ∧ readOnlyTrace cs := by
  unfold replicate_key kms_get_key_policy kms_list_resource_tags
  rcases hk : s.world.findKey "ca-central-1" arn with _ | ki
  · refine ⟨by simp [hk], [KMSCall.getKeyPolicy "ca-central-1" arn "default"],
      by simp [hk], ?_⟩
    simp [readOnlyTrace, KMSCall.isMutating]
  · refine ⟨by simp [hk],
      [KMSCall.getKeyPolicy "ca-central-1" arn "default",
       KMSCall.listResourceTags "ca-central-1" arn], by simp [hk], ?_⟩
    simp [readOnlyTrace, KMSCall.isMutating]

theorem get_primary_alias_frame (region arn : String) (s : St) :
    ((get_primary_alias region arn s).2).world = s.world ∧
    ((get_primary_alias region arn s).2).calls = s.calls ++ [KMSCall.listAliases region arn] := by
  unfold get_primary_alias kms_list_aliases
  rcases hk : s.world.findKey region arn with _ | ki
  · simp [hk]
  · rcases hf : (s.world.regionData region).aliases.find?
        (fun a => a.targetKeyId == lastSegment arn) with _ | a <;>
      simp [hk, hf]

theorem replicate_dispatch_one_dry (aws_region arn sr : String) (s : St) :
    (replicate_dispatch_one aws_region arn sr true s).world = s.world ∧
    ∃ cs, (replicate_dispatch_one aws_region arn sr true s).calls = s.calls ++ cs ∧
      readOnlyTrace cs := by
  obtain ⟨hw, hc⟩ := get_primary_alias_frame aws_region arn s
  unfold replicate_dispatch_one
  rcases hg : get_primary_alias aws_region arn s with ⟨a, s2⟩
  rw [hg] at hw hc
  replace hw : s2.world = s.world := hw
  replace hc : s2.calls = s.calls ++ [KMSCall.listAliases aws_region arn] := hc
  by_cases ht : pyTruthy a
  · obtain ⟨hw2, cs2, hc2, hr2⟩ := replicate_key_dry arn (a.getD "") sr s2
    refine ⟨?_, KMSCall.listAliases aws_region arn :: cs2, ?_, ?_⟩
    · simp [ht, hw2, hw]
    · simp [ht, hc2, hc, List.append_assoc]
    · intro c hcm
      rcases List.mem_cons.mp hcm with h1 | h2
      · subst h1; rfl
      · exact hr2 c h2
  · refine ⟨?_, [KMSCall.listAliases aws_region arn], ?_, ?_⟩
    · simp [ht, hw]
    · simp [ht, hc]
    · simp [readOnlyTrace, KMSCall.isMutating]

theorem replicate_loop_dry (aws_region sr : String) (arns : List String) (s : St) :
    (replicate_loop aws_region arns sr true s).world = s.world ∧
    ∃ cs, (replicate_loop aws_region arns sr true s).calls = s.calls ++ cs ∧
      readOnlyTrace cs := by
  induction arns generalizing s with
  | nil => exact ⟨rfl, [], by simp [replicate_loop], by simp [readOnlyTrace]⟩
  | cons arn rest ih =>
    obtain ⟨hw, cs1, hc1, hr1⟩ := replicate_dispatch_one_dry aws_region arn sr s
    obtain ⟨ih1, cs2, ihc, ihr⟩ := ih (replicate_dispatch_one aws_region arn sr true s)
    refine ⟨?_, cs1 ++ cs2, ?_, ?_⟩
    · rw [replicate_loop, ih1, hw]
    · rw [replicate_loop, ihc, hc1, List.append_assoc]
    · intro c hcm
      rcases List.mem_append.mp hcm with h1 | h2
      · exact hr1 c h1
      · exact ihr c h2

/-- C3: with dryRun = true the disable, scheduleDeletion and replicate
operations issue only read-only provider calls (describe, list, get) and the
provider world — every key state, tag set, policy and alias — is unchanged. -/
theorem claim3_dry_run_read_only (w : World) (region today sr : String)
    (arns : List String) (days : Nat) :
    ((disable_keys region arns true today (St.init w)).2.world = w ∧
      readOnlyTrace (disable_keys region arns true today (St.init w)).2.calls) ∧
    ((schedule_key_deletion region arns days true (St.init w)).world = w ∧
      readOnlyTrace (schedule_key_deletion region arns days true (St.init w)).calls) ∧
    ((replicate_loop region arns sr true (St.init w)).world = w ∧
      readOnlyTrace (replicate_loop region arns sr true (St.init w)).calls) := by
  obtain ⟨-, h1w, cs1, hc1, hr1⟩ := disable_keys_dry region today arns (St.init w)
  obtain ⟨h2w, cs2, hc2, hr2⟩ := schedule_keys_dry region arns days (St.init w)
  obtain ⟨h3w, cs3, hc3, hr3⟩ := replicate_loop_dry region sr arns (St.init w)
  refine ⟨⟨h1w, ?_⟩, ⟨h2w, ?_⟩, ⟨h3w, ?_⟩⟩
  · rw [hc1]; simpa using hr1
  · rw [hc2]; simpa using hr2
  · rw [hc3]; simpa using hr3

/-- C4: scheduleDeletion issues a schedule_key_deletion call with the given pending
window if and only if the resolved state is not PendingDeletion, the service_name tag is
not in the exclusion set, the DisabledOn tag is present and dryRun is false; a
PendingDeletion key is only described and reported already-scheduled; a key without the
DisabledOn tag triggers no mutating call, whatever its state. -/
theorem claim4_schedule_iff (w : World) (region arn : String) (days : Nat) (dry : Bool) :
    (KMSCall.scheduleKeyDeletion region arn days ∈
        (schedule_one region arn days dry (St.init w)).calls ↔
      (resolvedState w region arn ≠ "PendingDeletion" ∧
        serviceExcluded w region arn = false ∧
        hasDisabledOn w region arn = true ∧ dry = false)) ∧
    (resolvedState w region arn = "PendingDeletion" →
      (schedule_one region arn days dry (St.init w)).calls = [KMSCall.describeKey region arn] ∧
      (schedule_one region arn days dry (St.init w)).log =
        [⟨LogLevel.info, "Key " ++ arn ++ " already scheduled for deletion."⟩]) ∧
    (hasDisabledOn w region arn = false →
      readOnlyTrace (schedule_one region arn days dry (St.init w)).calls) := by
  rcases hk : w.findKey region arn with _ | ki
  · refine ⟨?_, ?_, ?_⟩ <;>
      simp [schedule_one, key_status, kms_describe_key, kms_list_resource_tags, schedule_catch,
        St.init, hk, notFoundErr, resolvedState, serviceExcluded, serviceTagValue, hasDisabledOn,
        readOnlyTrace, KMSCall.isMutating]
  · by_cases hp : ki.keyState = "PendingDeletion"
    · refine ⟨?_, ?_, ?_⟩ <;>
        simp [schedule_one, key_status, kms_describe_key, St.init, hk, hp, resolvedState,
          serviceExcluded, serviceTagValue, hasDisabledOn, readOnlyTrace, KMSCall.isMutating]
    · rcases hf : ki.tags.find? (fun t => t.tagKey == "service_name") with _ | t
      · rcases hd : ki.tags.find? (fun t => t.tagKey == "DisabledOn") with _ | d
        · refine ⟨?_, ?_, ?_⟩ <;>
            simp [schedule_one, schedule_tail, key_status, kms_describe_key,
              kms_list_resource_tags, St.init, hk, hp, hf, hd, resolvedState, serviceExcluded,
              serviceTagValue, hasDisabledOn, readOnlyTrace, KMSCall.isMutating]
        · cases dry <;> refine ⟨?_, ?_, ?_⟩ <;>
            simp [schedule_one, schedule_tail, key_status, kms_describe_key,
              kms_list_resource_tags, kms_schedule_key_deletion, St.init, hk, hp, hf, hd,
              resolvedState, serviceExcluded, serviceTagValue, hasDisabledOn, readOnlyTrace,
              KMSCall.isMutating]
      · by_cases hex : t.tagValue ∈ excluded_services
        · refine ⟨?_, ?_, ?_⟩ <;>
            simp [schedule_one, key_status, kms_describe_key, kms_list_resource_tags, St.init,
              hk, hp, hf, hex, resolvedState, serviceExcluded, serviceTagValue, hasDisabledOn,
              readOnlyTrace, KMSCall.isMutating]
        · rcases hd : ki.tags.find? (fun t => t.tagKey == "DisabledOn") with _ | d
          · refine ⟨?_, ?_, ?_⟩ <;>
              simp [schedule_one, schedule_tail, key_status, kms_describe_key,
                kms_list_resource_tags, St.init, hk, hp, hf, hex, hd, resolvedState,
                serviceExcluded, serviceTagValue, hasDisabledOn, readOnlyTrace,
                KMSCall.isMutating]
          · cases dry <;> refine ⟨?_, ?_, ?_⟩ <;>
              simp [schedule_one, schedule_tail, key_status, kms_describe_key,
                kms_list_resource_tags, kms_schedule_key_deletion, St.init, hk, hp, hf, hex,
                hd, resolvedState, serviceExcluded, serviceTagValue, hasDisabledOn,
                readOnlyTrace, KMSCall.isMutating]

/-- C5: cancelDeletion issues a cancel_key_deletion call if and only if the resolved
state is PendingDeletion or PendingReplicaDeletion; in every other state (Enabled,
Disabled, NotFound, anything else) it issues no mutating call, leaves the world unchanged
and reports nothing-to-cancel. -/
theorem claim5_cancel_iff (w : World) (region arn : String) :
    (KMSCall.cancelKeyDeletion region arn ∈ (cancel_one region arn (St.init w)).calls ↔
      (resolvedState w region arn = "PendingDeletion" ∨
        resolvedState w region arn = "PendingReplicaDeletion")) ∧
    (¬ (resolvedState w region arn = "PendingDeletion" ∨
        resolvedState w region arn = "PendingReplicaDeletion") →
      (cancel_one region arn (St.init w)).world = w ∧
      readOnlyTrace (cancel_one region arn (St.init w)).calls ∧
      (cancel_one region arn (St.init w)).log =
        [⟨LogLevel.info,
          "Key " ++ arn ++ " is not scheduled for deletion — nothing to cancel."⟩]) := by
  rcases hk : w.findKey region arn with _ | ki
  · refine ⟨?_, ?_⟩ <;>
      simp [cancel_one, key_status, kms_describe_key, St.init, hk, notFoundErr, resolvedState,
        readOnlyTrace, KMSCall.isMutating]
  · by_cases hm : ki.keyState ∈ ["PendingDeletion", "PendingReplicaDeletion"]
    · have hm2 := hm
      simp only [List.mem_cons, List.mem_singleton, List.not_mem_nil, or_false] at hm2
      refine ⟨?_, ?_⟩ <;>
        simp [cancel_one, key_status, kms_describe_key, kms_cancel_key_deletion, St.init, hk,
          hm, hm2, resolvedState, readOnlyTrace, KMSCall.isMutating]
    · have hm2 := hm
      simp only [List.mem_cons, List.mem_singleton, List.not_mem_nil, or_false] at hm2
      refine ⟨?_, ?_⟩ <;>
        (simp [cancel_one, key_status, kms_describe_key, St.init, hk, hm, resolvedState,
          readOnlyTrace, KMSCall.isMutating]
         try tauto)

theorem hasDisabledOn_any (w : World) (region arn : String) (ki : KeyInfo)
    (hk : w.findKey region arn = some ki) :
    hasDisabledOn w region arn = ki.tags.any (fun t => t.tagKey == "DisabledOn") := by
  rcases hd : ki.tags.find? (fun t => t.tagKey == "DisabledOn") with _ | d
  · have hall := List.find?_eq_none.mp hd
    have hany : ki.tags.any (fun t => t.tagKey == "DisabledOn") = false := by
      simp only [List.any_eq_false]
      intro t ht
      simpa using hall t ht
    simp [hasDisabledOn, hk, hd, hany]
  · have hmem := List.mem_of_find?_eq_some hd
    have hp := List.find?_some hd
    have hany : ki.tags.any (fun t => t.tagKey == "DisabledOn") = true :=
      List.any_eq_true.mpr ⟨d, hmem, hp⟩
    simp [hasDisabledOn, hk, hd, hany]

theorem any_filter_not {α : Type} (l : List α) (p : α → Bool) :
    (l.filter (fun t => !(p t))).any p = false := by
  induction l with
  | nil => rfl
  | cons hd tl ih =>
    by_cases h : p hd
    · simp [List.filter_cons, h, ih]
    · simp [List.filter_cons, h, ih]

/-- C6: enable removes the DisabledOn tag only when the tag is present (an
untag_resource call in its trace implies the key carried DisabledOn), and a second enable
immediately following a first enable on the same key issues no additional untag_resource
call. -/
theorem claim6_enable_idempotent (w : World) (region arn : String) :
    ((enable_one region arn (St.init w)).calls.any isUntagCall = true →
      hasDisabledOn w region arn = true) ∧
    ((enable_one region arn (enable_one region arn (St.init w))).calls.countP isUntagCall =
      (enable_one region arn (St.init w)).calls.countP isUntagCall) := by
  rcases hk : w.findKey region arn with _ | ki
  · refine ⟨?_, ?_⟩ <;>
      simp [enable_one, key_status, kms_describe_key, St.init, hk, notFoundErr, isUntagCall,
        List.countP_cons, List.countP_nil]
  · by_cases hs : ki.keyState = "NotFound"
    · refine ⟨?_, ?_⟩ <;>
        simp [enable_one, key_status, kms_describe_key, St.init, hk, hs, isUntagCall,
          List.countP_cons, List.countP_nil]
    · have e1 : (setKeyState w region arn "Enabled").findKey region arn =
          some { ki with keyState := "Enabled" } := by
        rw [findKey_setKeyState_self, hk]; rfl
      by_cases hd : ∃ t ∈ ki.tags, t.tagKey = "DisabledOn"
      · have hdo : hasDisabledOn w region arn = true := by
          rw [hasDisabledOn_any w region arn ki hk]
          obtain ⟨t, ht, he⟩ := hd
          exact List.any_eq_true.mpr ⟨t, ht, by simp [he]⟩
        refine ⟨fun _ => hdo, ?_⟩
        simp [enable_one, key_status, kms_describe_key, kms_enable_key,
          kms_list_resource_tags, kms_untag_resource, St.init, hk, hs, hd,
          findKey_setKeyState_self, findKey_updateKeyWorld, any_filter_not, isUntagCall,
          List.countP_cons, List.countP_nil]
      · refine ⟨?_, ?_⟩ <;>
          simp [enable_one, key_status, kms_describe_key, kms_enable_key,
            kms_list_resource_tags, St.init, hk, hs, hd, findKey_setKeyState_self,
            isUntagCall, List.countP_cons, List.countP_nil]

theorem disable_one_ok (region arn today : String) (dry : Bool) (s : St) :
    (disable_one region arn dry today s).1 = Except.ok () := by
  cases dry
  · unfold disable_one kms_disable_key kms_tag_resource
    rcases hk : s.world.findKey region arn with _ | ki
    · simp [hk]
    · simp [hk, findKey_setKeyState_self]
  · obtain ⟨s2, he, -, -⟩ := disable_one_dry region arn today s
    rw [he]

theorem disable_one_never_errors (region arn today : String) (dry : Bool) (s : St) :
    ∃ s2, disable_one region arn dry today s = (Except.ok (), s2) := by
  refine ⟨(disable_one region arn dry today s).2, ?_⟩
  rw [← disable_one_ok region arn today dry s]

theorem disable_keys_never_errors (region today : String) (dry : Bool) (arns : List String)
    (s : St) : ∃ s2, disable_keys region arns dry today s = (Except.ok (), s2) := by
  induction arns generalizing s with
  | nil => exact ⟨s, rfl⟩
  | cons arn rest ih =>
    obtain ⟨s2, he⟩ := disable_one_never_errors region arn today dry s
    obtain ⟨s3, he2⟩ := ih s2
    exact ⟨s3, by simp only [disable_keys, he, he2]⟩

/-- C7: the handler returns 403 with no provider calls when the account is in the
blocked-account denylist, 400 with no provider calls when the key list is empty or the
action name is unrecognized, and 200 with a completion body for every recognized action
on a nonempty key list, for every provider world — per-key provider failures never change
the response status. -/
theorem claim7_handler_status (e : Event) (account today : String) (w : World) :
    (blocked_accounts.contains account = true →
      (lambda_handler e account today (St.init w)).1 =
        Except.ok ⟨403, "Execution not allowed in this account"⟩ ∧
      (lambda_handler e account today (St.init w)).2.calls = []) ∧
    (blocked_accounts.contains account = false → e.key_arns = [] →
      (lambda_handler e account today (St.init w)).1 =
        Except.ok ⟨400, "No key ARNs specified"⟩ ∧
      (lambda_handler e account today (St.init w)).2.calls = []) ∧
    (blocked_accounts.contains account = false → e.key_arns ≠ [] →
      recognizedAction e.action = false →
      (lambda_handler e account today (St.init w)).1 =
        Except.ok ⟨400, "Unsupported action: " ++ pyOptStr e.action⟩ ∧
      (lambda_handler e account today (St.init w)).2.calls = []) ∧
    (blocked_accounts.contains account = false → e.key_arns ≠ [] →
      recognizedAction e.action = true →
      ∃ b, (lambda_handler e account today (St.init w)).1 = Except.ok ⟨200, b⟩) := by
  obtain ⟨areg, act, karns, dry, days⟩ := e
  refine ⟨fun hb => ?_, fun hb hk => ?_, fun hb hk hr => ?_, fun hb hk hr => ?_⟩
  · have hb3 : account = "111122223333" := by simpa [blocked_accounts] using hb
    constructor <;> simp [lambda_handler, blocked_accounts, hb3]
  · have hb3 : account ≠ "111122223333" := by simpa [blocked_accounts] using hb
    constructor <;> simp_all [lambda_handler, blocked_accounts]
  · have hb3 : account ≠ "111122223333" := by simpa [blocked_accounts] using hb
    rcases act with _ | a
    · constructor <;> simp_all [lambda_handler, blocked_accounts, pyOptStr]
    · simp only [recognizedAction, supported_actions] at hr
      have hr2 : ¬(a = "disable" ∨ a = "enable" ∨ a = "schedule_deletion" ∨
          a = "cancel_deletion" ∨ a = "tag_srk_migration" ∨
          a = "remove_tag_srk_migration" ∨ a = "replicate_ireland") := by
        simpa using hr
      push_neg at hr2
      obtain ⟨h1, h2, h3, h4, h5, h6, h7⟩ := hr2
      constructor <;>
        simp_all [lambda_handler, blocked_accounts, pyOptStr]
  · have hb3 : account ≠ "111122223333" := by simpa [blocked_accounts] using hb
    rcases act with _ | a
    · simp [recognizedAction] at hr
    · have hr2 : a = "disable" ∨ a = "enable" ∨ a = "schedule_deletion" ∨
          a = "cancel_deletion" ∨ a = "tag_srk_migration" ∨
          a = "remove_tag_srk_migration" ∨ a = "replicate_ireland" := by
        simpa [recognizedAction, supported_actions] using hr
      rcases hr2 with h | h | h | h | h | h | h <;> subst h
      · obtain ⟨s2, he⟩ := disable_keys_never_errors areg today dry karns (St.init w)
        exact ⟨"Action disable completed", by simp [lambda_handler, blocked_accounts, hb3, hk, he]⟩
      · exact ⟨"Action enable completed", by simp [lambda_handler, blocked_accounts, hb3, hk]⟩
      · exact ⟨"Action schedule_deletion completed",
          by simp [lambda_handler, blocked_accounts, hb3, hk]⟩
      · exact ⟨"Action cancel_deletion completed",
          by simp [lambda_handler, blocked_accounts, hb3, hk]⟩
      · exact ⟨"Action tag_srk_migration completed",
          by simp [lambda_handler, blocked_accounts, hb3, hk]⟩
      · exact ⟨"Action remove_tag_srk_migration completed",
          by simp [lambda_handler, blocked_accounts, hb3, hk]⟩
      · exact ⟨"Action replicate_ireland completed",
          by simp [lambda_handler, blocked_accounts, hb3, hk]⟩

theorem replaceAllFuel_not_contained (pat rep : List Char) (fuel : Nat) (l : List Char)
    (h : containsSeq pat l = false) : replaceAllFuel pat rep fuel l = l := by
  induction fuel generalizing l with
  | zero => cases l <;> rfl
  | succ n ih =>
    cases l with
    | nil => rfl
    | cons c cs =>
      have h2 : listStartsWith pat (c :: cs) = false ∧ containsSeq pat cs = false := by
        simpa [containsSeq] using h
      simp [replaceAllFuel, h2.1, ih cs h2.2]

/-- C8: replica alias derivation is the textual replacement of the token _ca-central-1
by the secondary region: on the convention-following example it yields
alias_eu-west-1_srk, and whenever the primary alias does not contain the token the
derivation silently returns the alias unchanged (a malformed name for the secondary
region) rather than failing. -/
theorem claim8_alias_derivation :
    derive_secondary_alias "alias_ca-central-1_srk" "eu-west-1" = "alias_eu-west-1_srk" ∧
    ∀ a r : String, containsSeq ("_ca-central-1".toList) a.toList = false →
      derive_secondary_alias a r = a := by
  refine ⟨by decide, fun a r h => ?_⟩
  unfold derive_secondary_alias pyReplace
  rw [replaceAllFuel_not_contained _ _ _ _ h]
  cases a
  rfl

/-- C9: get_primary_alias returns the name of the first listed alias whose target equals
the last segment of the key ARN, and none when no such alias exists; when it returns
none, the replicate dispatch for that key issues only the read-only list_aliases call,
changes nothing, and logs a warning. -/
theorem claim9_primary_alias (w : World) (region arn sr : String) (dry : Bool) :
    (w.findKey region arn ≠ none →
      (get_primary_alias region arn (St.init w)).1 =
        ((w.regionData region).aliases.find?
            (fun a => a.targetKeyId == lastSegment arn)).map (fun a => a.aliasName)) ∧
    ((get_primary_alias region arn (St.init w)).1 = none →
      (replicate_dispatch_one region arn sr dry (St.init w)).calls =
        [KMSCall.listAliases region arn] ∧
      (replicate_dispatch_one region arn sr dry (St.init w)).world = w ∧
      (replicate_dispatch_one region arn sr dry (St.init w)).log.any
        (fun l => l.level == LogLevel.warning) = true) := by
  rcases hk : w.findKey region arn with _ | ki
  · refine ⟨fun hne => absurd rfl hne, fun _ => ?_⟩
    refine ⟨?_, ?_, ?_⟩ <;>
      simp [replicate_dispatch_one, get_primary_alias, kms_list_aliases, St.init, hk, pyTruthy]
  · rcases hf : (w.regionData region).aliases.find?
        (fun a => a.targetKeyId == lastSegment arn) with _ | al
    · refine ⟨fun _ => ?_, fun _ => ?_⟩
      · simp [get_primary_alias, kms_list_aliases, St.init, hk, hf]
      · refine ⟨?_, ?_, ?_⟩ <;>
          simp [replicate_dispatch_one, get_primary_alias, kms_list_aliases, St.init, hk, hf,
            pyTruthy]
    · refine ⟨fun _ => ?_, fun hnone => ?_⟩
      · simp [get_primary_alias, kms_list_aliases, St.init, hk, hf]
      · exfalso
        simp [get_primary_alias, kms_list_aliases, St.init, hk, hf] at hnone

/-- Counterexample to C10 as stated: two replicate_ireland requests that differ only in
their region field make replication proceed (mutating calls issued) in one case and skip
entirely in the other, because the primary-alias lookup runs in the request region; the
region field therefore does influence what the replication reads and writes. -/
theorem claim10_cex :
    c10Event1.action = some "replicate_ireland" ∧
    c10Event2.action = some "replicate_ireland" ∧
    c10Event1.key_arns = c10Event2.key_arns ∧
    c10Event1.dry_run = c10Event2.dry_run ∧
    ((lambda_handler c10Event1 "222233334444" "d" (St.init c10World)).2.calls.any
      (fun c => c.isMutating)) = true ∧
    ((lambda_handler c10Event2 "222233334444" "d" (St.init c10World)).2.calls.any
      (fun c => c.isMutating)) = false ∧
    ((lambda_handler c10Event1 "222233334444" "d" (St.init c10World)).2.calls.any
      (fun c => c == KMSCall.listAliases "us-east-1" c10Arn)) = true ∧
    ((lambda_handler c10Event2 "222233334444" "d" (St.init c10World)).2.calls.any
      (fun c => c == KMSCall.listAliases "eu-central-1" c10Arn)) = true := by decide

theorem replicate_key_calls (arn pal sr : String) (dry : Bool) (s : St) :
    ∃ cs, (replicate_key arn pal sr dry s).calls = s.calls ++ cs ∧
      ∀ c ∈ cs, (c.callRegion = "ca-central-1" ∨ c.callRegion = sr) ∧
        isListAliasesCall c = false := by
  unfold replicate_key kms_get_key_policy kms_list_resource_tags kms_replicate_key
    kms_put_key_policy kms_create_alias kms_tag_resource
  rcases hk : s.world.findKey "ca-central-1" arn with _ | ki
  · refine ⟨[KMSCall.getKeyPolicy "ca-central-1" arn "default"], by simp [hk], ?_⟩
    intro c hc
    fin_cases hc <;> simp [KMSCall.callRegion, isListAliasesCall]
  · cases dry
    · rcases hk2 : ((s.world.updateRegion sr (fun rd =>
          rd.insertKey (replicaArnOf arn sr) ⟨"Enabled", [], ""⟩)).findKey sr
          (replicaArnOf arn sr)) with _ | k2
      · refine ⟨[KMSCall.getKeyPolicy "ca-central-1" arn "default",
          KMSCall.listResourceTags "ca-central-1" arn,
          KMSCall.replicateKey "ca-central-1" arn sr "Replica key",
          KMSCall.putKeyPolicy sr (replicaArnOf arn sr) "default" ki.policy],
          by simp [hk, hk2], ?_⟩
        intro c hc
        fin_cases hc <;> simp [KMSCall.callRegion, isListAliasesCall]
      · rcases hk3 : (((s.world.updateRegion sr (fun rd =>
            rd.insertKey (replicaArnOf arn sr) ⟨"Enabled", [], ""⟩)).updateRegion sr
            (fun rd => rd.updateKey (replicaArnOf arn sr)
              (fun k => { k with policy := ki.policy }))).findKey sr
            (replicaArnOf arn sr)) with _ | k3
        · refine ⟨[KMSCall.getKeyPolicy "ca-central-1" arn "default",
            KMSCall.listResourceTags "ca-central-1" arn,
            KMSCall.replicateKey "ca-central-1" arn sr "Replica key",
            KMSCall.putKeyPolicy sr (replicaArnOf arn sr) "default" ki.policy,
            KMSCall.createAlias sr (derive_secondary_alias pal sr) (replicaArnOf arn sr)],
            by simp [hk, hk2, hk3], ?_⟩
          intro c hc
          fin_cases hc <;> simp [KMSCall.callRegion, isListAliasesCall]
        · by_cases ht : ki.tags = []
          · refine ⟨[KMSCall.getKeyPolicy "ca-central-1" arn "default",
              KMSCall.listResourceTags "ca-central-1" arn,
              KMSCall.replicateKey "ca-central-1" arn sr "Replica key",
              KMSCall.putKeyPolicy sr (replicaArnOf arn sr) "default" ki.policy,
              KMSCall.createAlias sr (derive_secondary_alias pal sr) (replicaArnOf arn sr)],
              by simp [hk, hk2, hk3, ht], ?_⟩
            intro c hc
            fin_cases hc <;> simp [KMSCall.callRegion, isListAliasesCall]
          · rcases hk4 : ((((s.world.updateRegion sr (fun rd =>
                rd.insertKey (replicaArnOf arn sr) ⟨"Enabled", [], ""⟩)).updateRegion sr
                (fun rd => rd.updateKey (replicaArnOf arn sr)
                  (fun k => { k with policy := ki.policy }))).updateRegion sr
                (fun rd => rd.addAlias ⟨derive_secondary_alias pal sr,
                  replicaArnOf arn sr⟩)).findKey sr (replicaArnOf arn sr)) with _ | k4
            · refine ⟨[KMSCall.getKeyPolicy "ca-central-1" arn "default",
                KMSCall.listResourceTags "ca-central-1" arn,
                KMSCall.replicateKey "ca-central-1" arn sr "Replica key",
                KMSCall.putKeyPolicy sr (replicaArnOf arn sr) "default" ki.policy,
                KMSCall.createAlias sr (derive_secondary_alias pal sr) (replicaArnOf arn sr),
                KMSCall.tagResource sr (replicaArnOf arn sr) ki.tags],
                by simp [hk, hk2, hk3, hk4, ht], ?_⟩
              intro c hc
              fin_cases hc <;> simp [KMSCall.callRegion, isListAliasesCall]
            · refine ⟨[KMSCall.getKeyPolicy "ca-central-1" arn "default",
                KMSCall.listResourceTags "ca-central-1" arn,
                KMSCall.replicateKey "ca-central-1" arn sr "Replica key",
                KMSCall.putKeyPolicy sr (replicaArnOf arn sr) "default" ki.policy,
                KMSCall.createAlias sr (derive_secondary_alias pal sr) (replicaArnOf arn sr),
                KMSCall.tagResource sr (replicaArnOf arn sr) ki.tags],
                by simp [hk, hk2, hk3, hk4, ht], ?_⟩
              intro c hc
              fin_cases hc <;> simp [KMSCall.callRegion, isListAliasesCall]
    · refine ⟨[KMSCall.getKeyPolicy "ca-central-1" arn "default",
        KMSCall.listResourceTags "ca-central-1" arn], by simp [hk], ?_⟩
      intro c hc
      fin_cases hc <;> simp [KMSCall.callRegion, isListAliasesCall]

theorem replicate_dispatch_one_calls (aws arn sr : String) (dry : Bool) (s : St) :
    ∃ cs, (replicate_dispatch_one aws arn sr dry s).calls = s.calls ++ cs ∧
      ∀ c ∈ cs, (∃ a2, c = KMSCall.listAliases aws a2) ∨
        ((c.callRegion = "ca-central-1" ∨ c.callRegion = sr) ∧
          isListAliasesCall c = false) := by
  obtain ⟨hw, hc⟩ := get_primary_alias_frame aws arn s
  unfold replicate_dispatch_one
  rcases hg : get_primary_alias aws arn s with ⟨a, s2⟩
  rw [hg] at hw hc
  replace hc : s2.calls = s.calls ++ [KMSCall.listAliases aws arn] := hc
  by_cases ht : pyTruthy a
  · obtain ⟨cs2, hc2, hr2⟩ := replicate_key_calls arn (a.getD "") sr dry s2
    refine ⟨KMSCall.listAliases aws arn :: cs2, ?_, ?_⟩
    · simp [ht, hc2, hc, List.append_assoc]
    · intro c hcm
      rcases List.mem_cons.mp hcm with h1 | h2
      · exact Or.inl ⟨arn, h1⟩
      · exact Or.inr (hr2 c h2)
  · refine ⟨[KMSCall.listAliases aws arn], ?_, ?_⟩
    · simp [ht, hc]
    · intro c hcm
      have h1 := List.mem_singleton.mp hcm
      exact Or.inl ⟨arn, h1⟩

theorem replicate_loop_calls (aws sr : String) (arns : List String) (dry : Bool) (s : St) :
    ∃ cs, (replicate_loop aws arns sr dry s).calls = s.calls ++ cs ∧
      ∀ c ∈ cs, (∃ a2, c = KMSCall.listAliases aws a2) ∨
        ((c.callRegion = "ca-central-1" ∨ c.callRegion = sr) ∧
          isListAliasesCall c = false) := by
  induction arns generalizing s with
  | nil => exact ⟨[], by simp [replicate_loop], by simp⟩
  | cons arn rest ih =>
    obtain ⟨cs1, hc1, hr1⟩ := replicate_dispatch_one_calls aws arn sr dry s
    obtain ⟨cs2, hc2, hr2⟩ := ih (replicate_dispatch_one aws arn sr dry s)
    refine ⟨cs1 ++ cs2, ?_, ?_⟩
    · rw [replicate_loop, hc2, hc1, List.append_assoc]
    · intro c hcm
      rcases List.mem_append.mp hcm with h1 | h2
      · exact hr1 c h1
      · exact hr2 c h2

/-- C10 (amended): replicate_key always issues its calls against the fixed primary
region ca-central-1 or the given secondary region, and the dispatcher fixes the secondary
region to eu-west-1, so every mutating call of a replicate_ireland request is issued in
ca-central-1 or eu-west-1 regardless of the request region; the request region determines
only where the list_aliases lookup of the primary alias is issued, and hence which alias,
if any, replication proceeds with. -/
theorem claim10_regions (w : World) (arn pal sr : String) (dry : Bool) :
    (∀ c ∈ (replicate_key arn pal sr dry (St.init w)).calls,
        c.callRegion = "ca-central-1" ∨ c.callRegion = sr) ∧
    (∀ (e : Event) (account today : String), e.action = some "replicate_ireland" →
      ∀ c ∈ (lambda_handler e account today (St.init w)).2.calls,
        (c.isMutating = true →
          (c.callRegion = "ca-central-1" ∨ c.callRegion = "eu-west-1")) ∧
        (isListAliasesCall c = true → c.callRegion = e.aws_region)) := by
  constructor
  · obtain ⟨cs, hcs, hr⟩ := replicate_key_calls arn pal sr dry (St.init w)
    intro c hc
    rw [hcs] at hc
    simp only [stInitCalls, List.nil_append] at hc
    exact (hr c hc).1
  · rintro ⟨areg, act, karns, dry2, days⟩ account today ha c hc
    simp only at ha
    subst ha
    by_cases hb : account = "111122223333"
    · simp [lambda_handler, blocked_accounts, hb] at hc
    · by_cases hkn : karns = []
      · simp [lambda_handler, blocked_accounts, hb, hkn] at hc
      · obtain ⟨cs, hcs, hr⟩ := replicate_loop_calls areg "eu-west-1" karns dry2 (St.init w)
        simp only [lambda_handler, blocked_accounts] at hc
        simp [hb, hkn, hcs] at hc
        rcases hr c (by simpa using hc) with ⟨a2, rfl⟩ | ⟨hreg, hnla⟩
        · refine ⟨fun hm => ?_, fun _ => rfl⟩
          simp [KMSCall.isMutating] at hm
        · refine ⟨fun _ => hreg, fun hla => ?_⟩
          rw [hnla] at hla
          exact absurd hla (by simp)

/-- Closed witness for C1: the amended theorem applied to the empty world. -/
theorem claim1_witness :
    (⟨[]⟩ : World).findKey "us-east-1" "k" = none ∧
    (enable_one "us-east-1" "k" (St.init ⟨[]⟩)).world = (⟨[]⟩ : World) ∧
    ((enable_one "us-east-1" "k" (St.init ⟨[]⟩)).calls.all (fun c => !c.isMutating)) = true ∧
    (enable_one "us-east-1" "k" (St.init ⟨[]⟩)).log =
      [⟨LogLevel.info, "Key " ++ "k" ++ " not found"⟩] := by
  have h := (claim1_notfound_amended ⟨[]⟩ "us-east-1" "k" "d" (by decide)).1
  refine ⟨by decide, h.1, ?_, h.2.2⟩
  rw [List.all_eq_true]
  intro c hc
  simpa using h.2.1 c hc

/-- Closed witness for C2: the amended theorem applied to the rds-tagged key. -/
theorem claim2_witness :
    serviceTagValue cexWorldC2 "us-east-1" "k2" = some "rds" ∧
    excluded_services.contains "rds" = true ∧
    ((schedule_one "us-east-1" "k2" 30 true (St.init cexWorldC2)).calls.all
      (fun c => !c.isMutating)) = true := by
  have h :=
    (claim2_amended cexWorldC2 "us-east-1" "k2" "rds" 30 true (by decide) (by decide)).2.1
  refine ⟨by decide, by decide, ?_⟩
  rw [List.all_eq_true]
  intro c hc
  simpa using h c hc

/-- Closed witness for C3: the dry-run theorem applied to a one-key world. -/
theorem claim3_witness :
    (disable_keys "us-east-1" ["k1"] true "d" (St.init wDisabledKey)).2.world = wDisabledKey ∧
    ((disable_keys "us-east-1" ["k1"] true "d" (St.init wDisabledKey)).2.calls.all
      (fun c => !c.isMutating)) = true := by
  have h := (claim3_dry_run_read_only wDisabledKey "us-east-1" "d" "eu-west-1" ["k1"] 7).1
  refine ⟨h.1, ?_⟩
  rw [List.all_eq_true]
  intro c hc
  simpa using h.2 c hc

/-- Closed witness for C4: an enabled key carrying DisabledOn is scheduled. -/
theorem claim4_witness :
    KMSCall.scheduleKeyDeletion "us-east-1" "k1" 7 ∈
      (schedule_one "us-east-1" "k1" 7 false (St.init wDisabledKey)).calls :=
  (claim4_schedule_iff wDisabledKey "us-east-1" "k1" 7 false).1.mpr
    ⟨by decide, by decide, by decide, rfl⟩

/-- Closed witness for C5: a pending key receives the cancel call. -/
theorem claim5_witness :
    KMSCall.cancelKeyDeletion "us-east-1" "kp" ∈
      (cancel_one "us-east-1" "kp" (St.init wPending)).calls :=
  (claim5_cancel_iff wPending "us-east-1" "kp").1.mpr (Or.inl (by decide))

/-- Closed witness for C6: two consecutive enables on a tagged key. -/
theorem claim6_witness :
    (enable_one "us-east-1" "k1"
        (enable_one "us-east-1" "k1" (St.init wDisabledKey))).calls.countP isUntagCall =
      (enable_one "us-east-1" "k1" (St.init wDisabledKey)).calls.countP isUntagCall :=
  (claim6_enable_idempotent wDisabledKey "us-east-1" "k1").2

/-- Closed witness for C7: the blocked account yields 403 and no calls. -/
theorem claim7_witness :
    (lambda_handler ⟨"us-east-1", some "enable", ["k1"], false, 30⟩ "111122223333" "d"
      (St.init wDisabledKey)).1 =
        Except.ok ⟨403, "Execution not allowed in this account"⟩ ∧
    (lambda_handler ⟨"us-east-1", some "enable", ["k1"], false, 30⟩ "111122223333" "d"
      (St.init wDisabledKey)).2.calls = [] :=
  (claim7_handler_status ⟨"us-east-1", some "enable", ["k1"], false, 30⟩ "111122223333" "d"
    wDisabledKey).1 (by decide)

/-- Closed witness for C8: a token-free alias passes through unchanged. -/
theorem claim8_witness :
    containsSeq ("_ca-central-1".toList) ("alias_srk".toList) = false ∧
    derive_secondary_alias "alias_srk" "eu-west-1" = "alias_srk" :=
  ⟨by decide, claim8_alias_derivation.2 "alias_srk" "eu-west-1" (by decide)⟩

/-- Closed witness for C9: a key without aliases is skipped with a warning. -/
theorem claim9_witness :
    (replicate_dispatch_one "us-east-1" "k1" "eu-west-1" false (St.init wNoAlias)).calls =
      [KMSCall.listAliases "us-east-1" "k1"] ∧
    (replicate_dispatch_one "us-east-1" "k1" "eu-west-1" false (St.init wNoAlias)).world =
      wNoAlias ∧
    (replicate_dispatch_one "us-east-1" "k1" "eu-west-1" false (St.init wNoAlias)).log.any
      (fun l => l.level == LogLevel.warning) = true :=
  (claim9_primary_alias wNoAlias "us-east-1" "k1" "eu-west-1" false).2 (by decide)

/-- Closed witness for C10: all replicate_key calls stay in the two fixed regions. -/
theorem claim10_witness :
    ((replicate_key "k1" "alias_ca-central-1_srk" "eu-west-1" false
        (St.init wDisabledKey)).calls.all
      (fun c => c.callRegion == "ca-central-1" || c.callRegion == "eu-west-1")) = true := by
  have h :=
    (claim10_regions wDisabledKey "k1" "alias_ca-central-1_srk" "eu-west-1" false).1
  rw [List.all_eq_true]
  intro c hc
  rcases h c hc with h1 | h1 <;> simp [h1]
